import Mathlib

/-!
Shallow embedding of the kiroku-bot repository (`bot.py`, `codeops.py`,
`outreach_ops.py`) and proofs about the claims of its specification.

Conventions used throughout:
* Python strings are modelled as `Str := List Char`; concrete literals are
  written `"...".data`.
* External effects (git subprocesses, the LLM HTTP calls, SMTP, the Discord
  gateway, the filesystem) are modelled as explicit parameters and as
  `BotAction` values emitted at the same program points where the source
  performs the corresponding call.
* Fallible Python code (functions that `raise CodeOpsError` /
  `OutreachOpsError`) is modelled with `Except Str` or with an
  `Option Str` error component.
-/

/-! ### Python string primitives -/

/-- Python strings, modelled as lists of characters. -/
abbrev Str := List Char

/-- Characters stripped by Python's default `str.strip()` (the common
whitespace characters; exotic unicode spaces do not occur in this
development's inputs). -/
def isPyWS (c : Char) : Bool :=
  c = ' ' || c = '\t' || c = '\n' || c = '\r' || c = '\x0b' || c = '\x0c' ||
  c = '\x1c' || c = '\x1d' || c = '\x1e' || c = '\x1f' || c = '\x85' || c = '\xa0'

/-- Strip characters satisfying `p` from both ends (Python `str.strip(chars)`). -/
def stripBy (p : Char → Bool) (s : Str) : Str :=
  ((s.dropWhile p).reverse.dropWhile p).reverse

/-- Python `str.strip()` with no argument. -/
def stripWS (s : Str) : Str := stripBy isPyWS s

/-- Python `str.lower()` (ASCII, which covers every comparison in the source). -/
def lowerStr (s : Str) : Str := s.map Char.toLower

/-- Python `str.upper()` (ASCII, which covers every comparison in the source). -/
def upperStr (s : Str) : Str := s.map Char.toUpper

/-- Worker for `pySplitWS`, accumulating the current token reversed. -/
def splitWSGo : Str → Str → List Str
  | [], acc => if acc.isEmpty then [] else [acc.reverse]
  | c :: rest, acc =>
    if isPyWS c then
      if acc.isEmpty then splitWSGo rest [] else acc.reverse :: splitWSGo rest []
    else
      splitWSGo rest (c :: acc)

/-- Python `str.split()` with no arguments: split on whitespace runs,
producing no empty tokens. -/
def pySplitWS (s : Str) : List Str := splitWSGo s []

/-- Decimal rendering of a natural number (Python f-string `{n}`). -/
def natDigits (n : Nat) : Str := Nat.toDigits 10 n

/-- Python `str.isdigit()` restricted to ASCII digits (all inputs in the
source are ASCII). -/
def isDigitStr (s : Str) : Bool := !s.isEmpty && s.all Char.isDigit

/-- Value of a decimal digit string (Python `int(...)` on a digit string). -/
def natOfDigits (s : Str) : Nat := s.foldl (fun n c => n * 10 + (c.toNat - 48)) 0

/-! ### Python `str.splitlines()` and CRLF normalization

`splitlinesGo` is a faithful rendering of Python's `str.splitlines()`:
a `"\r\n"` pair is a single line break, each character in the line-boundary
set ends a line, and a trailing boundary does not produce a final empty
line. -/

/-- The line-boundary characters recognised by Python `str.splitlines()`. -/
def isLineBoundary (c : Char) : Bool :=
  c = '\n' || c = '\r' || c = '\x0b' || c = '\x0c' ||
  c = '\x1c' || c = '\x1d' || c = '\x1e' || c = '\x85' ||
  c = '\u2028' || c = '\u2029'

/-- Worker for `pySplitlines`; `acc` is the current line (reversed) and
`afterCR` records that the previous character was a `'\r'`, so that an
immediately following `'\n'` is the second half of one `"\r\n"` break. -/
def splitlinesGo : Str → Bool → Str → List Str
  | [], _, acc => if acc.isEmpty then [] else [acc.reverse]
  | c :: rest, afterCR, acc =>
    if c = '\n' then
      if afterCR then splitlinesGo rest false acc
      else acc.reverse :: splitlinesGo rest false []
    else if c = '\r' then
      acc.reverse :: splitlinesGo rest true []
    else if isLineBoundary c then
      acc.reverse :: splitlinesGo rest false []
    else
      splitlinesGo rest false (c :: acc)

/-- Python `str.splitlines()`. -/
def pySplitlines (s : Str) : List Str := splitlinesGo s false []

/-- Python `.replace("\r\n", "\n")`: a single left-to-right pass with no
rescanning of the replacement text. -/
def replaceCRLF : Str → Str
  | [] => []
  | '\r' :: '\n' :: rest => '\n' :: replaceCRLF rest
  | c :: rest => c :: replaceCRLF rest

/-- Join a list of strings with `"\n"` (Python `"\n".join(...)`). -/
def joinNL : List Str → Str
  | [] => []
  | [l] => l
  | l :: l2 :: rest => l ++ '\n' :: joinNL (l2 :: rest)

/-- Whether appending one `'\n'` to `u` (processed with current line `acc`)
produces one extra empty line in `pySplitlines`: it does exactly when `u`
ends with a line boundary, or is empty while no line is open. -/
def needsExtraLine (u acc : Str) : Bool :=
  match u.getLast? with
  | none => acc.isEmpty
  | some c => isLineBoundary c

/-! ### bot.py: permissions and command dispatch (`_is_admin_channel`,
`_is_allowed_user`, `_dispatch_command`, `on_message`) -/

/-- The read-only command set (`READ_COMMANDS`, bot.py line 204). -/
def READ_COMMANDS : List Str :=
  ["help".data, "status".data, "tasks".data, "show".data, "preview".data,
   "repo".data, "id".data, "ping".data]

/-- The mutating command set (`MUTATING_COMMANDS`, bot.py lines 205-218). -/
def MUTATING_COMMANDS : List Str :=
  ["task".data, "plan".data, "diff".data, "apply".data, "commit".data,
   "pr".data, "run".data, "merge".data, "deploy".data, "ship".data,
   "outreach".data, "do".data]

/-- `_is_admin_channel` (bot.py lines 221-224): an empty configured set makes
every channel eligible. -/
def is_admin_channel (adminChannelIds : List Nat) (channelId : Nat) : Bool :=
  if adminChannelIds.isEmpty then true else adminChannelIds.contains channelId

/-- `_is_allowed_user` (bot.py lines 227-232): an empty allow-list is
bootstrap mode and admits every user. -/
def is_allowed_user (allowedUserIds : List Nat) (userId : Nat) : Bool :=
  if allowedUserIds.isEmpty then true else allowedUserIds.contains userId

/-- The authorization-refusal reply rendered at bot.py line 829. -/
def unauthorizedMessage (userId : Nat) (cmd : Str) : Str :=
  "Unauthorized: <@".data ++ natDigits userId ++ "> cannot run `".data ++ cmd ++ "`.".data

/-- Outcome of `_dispatch_command` for one parsed command. `readCmd` and
`engine` mean the corresponding handler ran (with its argument string);
`unauthorized` and `unknown` mean only a chat reply was sent and no engine
operation was invoked. -/
inductive DispatchOutcome where
  | readCmd (cmd args : Str)
  | engine (cmd args : Str)
  | unauthorized (msg : Str)
  | unknown (cmd : Str)
deriving DecidableEq

/-- `_dispatch_command` (bot.py lines 799-858), at the granularity of which
handler class runs. -/
def dispatch_command (allowedUserIds : List Nat) (authorId : Nat)
    (command args : Str) : DispatchOutcome :=
  let cmd := stripWS (lowerStr command)
  if READ_COMMANDS.contains cmd then
    .readCmd cmd args
  else if MUTATING_COMMANDS.contains cmd then
    if !is_allowed_user allowedUserIds authorId then
      .unauthorized (unauthorizedMessage authorId cmd)
    else
      .engine cmd args
  else
    .unknown cmd

/-- The channel/author gate of `on_message` (bot.py lines 884-889) combined
with the dispatch of one parsed command line: messages from bots and
messages outside eligible channels are ignored (`none`). -/
def message_command_outcome (adminChannelIds allowedUserIds : List Nat)
    (authorIsBot : Bool) (channelId authorId : Nat)
    (command args : Str) : Option DispatchOutcome :=
  if authorIsBot then none
  else if !is_admin_channel adminChannelIds channelId then none
  else some (dispatch_command allowedUserIds authorId command args)

/-! ### codeops.py: the task store (`CodeTask`, `_next_id`, `_upsert_task`,
`create_task`) -/

/-- `CodeTask` (codeops.py lines 27-43), with the same fields and defaults. -/
structure TaskRec where
  task_id : Nat
  title : Str
  instructions : Str
  requested_by : Str
  requested_by_id : Str
  status : Str
  branch : Str
  created_at : Str
  updated_at : Str
  plan : Str := []
  patch : Str := []
  files : List Str := []
  commit_sha : Str := []
  compare_url : Str := []
  last_error : Str := []
deriving DecidableEq

/-- The persisted store payload `{next_id, tasks}` (codeops.py line 158). -/
structure TaskStore where
  next_id : Nat
  tasks : List TaskRec
deriving DecidableEq

/-- The store initialised by `_init_store_if_missing` (codeops.py line 158). -/
def initialStore : TaskStore := { next_id := 1, tasks := [] }

/-- `_next_id` (codeops.py lines 197-202): read the counter, persist the
incremented counter, return the read value. -/
def next_id (st : TaskStore) : Nat × TaskStore :=
  (st.next_id, { st with next_id := st.next_id + 1 })

/-- List part of `_upsert_task` (codeops.py lines 183-195): replace the entry
with the same id in place, else append. -/
def upsertTasks : List TaskRec → TaskRec → List TaskRec
  | [], t => [t]
  | x :: rest, t =>
    if x.task_id = t.task_id then t :: rest else x :: upsertTasks rest t

/-- `_upsert_task` (codeops.py lines 183-195). -/
def upsert_task (st : TaskStore) (t : TaskRec) : TaskStore :=
  { st with tasks := upsertTasks st.tasks t }

/-- Inputs of one `create_task` call: the caller-supplied fields plus the
timestamp `_iso_now()` returned at that moment. -/
structure CreateParams where
  title : Str
  instructions : Str
  requested_by : Str
  requested_by_id : Str
  now : Str

/-- `create_task` (codeops.py lines 305-323). The whole body runs under the
store lock, so it is one atomic store transformation. `infer` stands for
`_infer_files_from_text`, whose result depends on `git ls-files` (an
external process) and does not influence id assignment. -/
def create_task (infer : Str → List Str) (st : TaskStore) (p : CreateParams) :
    TaskStore × TaskRec :=
  let idSt := next_id st
  let tid := idSt.1
  let t : TaskRec := {
    task_id := tid
    title := (stripWS p.title).take 120
    instructions := stripWS p.instructions
    requested_by := p.requested_by
    requested_by_id := p.requested_by_id
    status := "new".data
    branch := "codex/task-".data ++ natDigits tid
    created_at := p.now
    updated_at := p.now
    files := infer (stripWS p.instructions) }
  (upsert_task idSt.2 t, t)

/-- `n` sequential `create_task` calls (the store lock serializes them, so
back-to-back issuance is the same as sequential composition); `params i`
supplies the arguments of the `i`-th call. -/
def createSeq (infer : Str → List Str) (params : Nat → CreateParams) :
    Nat → TaskStore → TaskStore
  | 0, st => st
  | n + 1, st => (create_task infer (createSeq infer params n st) (params n)).1

/-! ### CSV rows (outreach_ops.py `_read_csv` output: one dict per row) -/

/-- One CSV row, as the ordered key/value dict produced by `csv.DictReader`. -/
abbrev Row := List (Str × Str)

/-- Python `row.get(key)` with the source's `or ""` / falsiness handling:
a missing key behaves like the empty string. -/
def rowGet (row : Row) (key : Str) : Str :=
  (((row.find? fun kv => kv.1 == key).map Prod.snd).getD [])

/-- Python `row[key] = value` on a dict: replace the value in place if the
key exists (keeping insertion order), else append the new key at the end. -/
def dictSet : Row → Str → Str → Row
  | [], k, v => [(k, v)]
  | kv :: rest, k, v =>
    if kv.1 = k then (k, v) :: rest else kv :: dictSet rest k v

/-! ### Observable side effects

State-changing external calls are modelled as `BotAction` values emitted at
the same program points where the source performs them.  The seven
plan/diff/apply/commit/pr/merge/deploy steps that `ship` runs after
resolving its target are abstracted into the single marker
`pipeline taskId` carrying the id they run on. -/

inductive BotAction where
  | gitCheckoutBase
  | gitPullBase
  | restartBot
  | createTask (title instructions : Str)
  | pipeline (taskId : Nat)
  | generateLeads (count : Nat)
  | draftEmails
  | smtpSend (toEmail : Str)
  | writeOutbox (rows : List Row)
deriving DecidableEq

/-! ### bot.py: confirmation gating (`_handle_deploy`, `_strip_confirm_flag`,
`_handle_ship`) and the free helpers of codeops.py -/

/-- `_strip_confirm_flag` (bot.py lines 499-507). -/
def strip_confirm_flag (raw : Str) (expected : Str) : Str × Bool :=
  let parts := pySplitWS raw
  if !parts.contains "--confirm".data then (stripWS raw, false)
  else
    let idx := parts.indexOf "--confirm".data
    let token := parts.getD (idx + 1) []
    let ok := upperStr (stripWS token) == upperStr expected
    let kept := parts.take idx ++ parts.drop (idx + 2)
    (stripWS (List.intercalate [' '] kept), ok)

/-- The dirty-worktree refusal of `_ensure_clean_worktree` (bot.py line 463). -/
def dirtyTreeMsg : Str :=
  "Repo is dirty; refusing operation. Clean working tree first.".data

/-- `_handle_deploy` (bot.py lines 474-496).  `dirty` is the outcome of the
`git status --porcelain` read (a read-only call). -/
def handle_deploy (dirty : Bool) (args : Str) : List BotAction × Option Str :=
  let raw := stripWS args
  if upperStr (stripWS raw) ≠ "--CONFIRM DEPLOY".data then
    ([], some "Usage: deploy --confirm DEPLOY".data)
  else if dirty then ([], some dirtyTreeMsg)
  else ([.gitCheckoutBase, .gitPullBase, .restartBot], none)

/-- Word characters of the character class `[0-9A-Za-z_]`. -/
def isWordChar (c : Char) : Bool := c.isAlphanum || c = '_'

/-- `parse_task_id` (codeops.py lines 638-645): regex
`^#?([0-9]+)(?=$|[^0-9A-Za-z_])` against the stripped token. -/
def parse_task_id (value : Str) : Except Str Nat :=
  let cleaned := stripWS value
  let body := if cleaned.head? = some '#' then cleaned.tail else cleaned
  let ds := body.takeWhile Char.isDigit
  let rest := body.drop ds.length
  if ds.isEmpty then .error "Task ID must be a number (example: `1` or `#1`).".data
  else
    match rest.head? with
    | none => .ok (natOfDigits ds)
    | some c =>
      if isWordChar c then
        .error "Task ID must be a number (example: `1` or `#1`).".data
      else .ok (natOfDigits ds)

/-- Split at the first occurrence of `needle` (Python `str.split(sep, 1)`),
returning the parts before and after it, or `none` when absent. -/
def splitAtFirstSep (needle : Str) : Str → Option (Str × Str)
  | [] => if needle.isPrefixOf ([] : Str) then some ([], []) else none
  | c :: rest =>
    if needle.isPrefixOf (c :: rest) then some ([], (c :: rest).drop needle.length)
    else (splitAtFirstSep needle rest).map fun p => (c :: p.1, p.2)

/-- Full match of the placeholder regex `<[^>]+>`. -/
def isBracketPlaceholder (s : Str) : Bool :=
  decide (3 ≤ s.length) && s.head? == some '<' && s.getLast? == some '>' &&
    ((s.drop 1).dropLast.all fun c => c ≠ '>')

/-- The placeholder-rejection message of `parse_title_and_instructions`
(codeops.py lines 666-670). -/
def placeholderPasteMsg : Str :=
  ("It looks like you pasted placeholders (`<title>` / `<instructions>`). " ++
   "Replace them with real text, e.g. " ++
   "`!kiroku task Add ping command || Add a read command ping that replies pong.`").data

/-- `parse_title_and_instructions` (codeops.py lines 648-671). -/
def parse_title_and_instructions (raw : Str) : Except Str (Str × Str) :=
  let content := stripWS raw
  if content.isEmpty then .error "Usage: !kiroku task <title> || <instructions>".data
  else
    let split :=
      match splitAtFirstSep "||".data content with
      | some p => (stripWS p.1, stripWS p.2)
      | none => (content.take 100, content)
    if split.1.isEmpty then .error "Task title cannot be empty.".data
    else if split.2.isEmpty then .error "Task instructions cannot be empty.".data
    else if isBracketPlaceholder (stripWS split.1) ||
        isBracketPlaceholder (stripWS split.2) then
      .error placeholderPasteMsg
    else .ok split

/-- The task-id test of `_handle_ship` (bot.py line 524): the source regex is
the raw string `r"^#?\\d+\\b"`, whose doubled backslashes denote *literal*
backslash characters, so it matches an optional `#`, then a literal `\`,
then one or more letters `d`, then the two characters `\b`. -/
def shipIdRegexMatches (s : Str) : Bool :=
  let body := if s.head? = some '#' then s.tail else s
  match body with
  | '\\' :: rest =>
    let ds := rest.takeWhile fun c => c = 'd'
    !ds.isEmpty && "\\b".data.isPrefixOf (rest.drop ds.length)
  | _ => false

/-- Environment of one `_handle_ship` run: the `git status` dirty flag and
the id the store would allocate if a task is created. -/
structure ShipEnv where
  dirty : Bool
  newTaskId : Nat
deriving DecidableEq

/-- `_handle_ship` (bot.py lines 510-558), up to the pipeline marker. -/
def handle_ship (env : ShipEnv) (args : Str) : List BotAction × Option Str :=
  let fl := strip_confirm_flag args "SHIP".data
  if !fl.2 then ([], some "Refusing to ship without `--confirm SHIP`.".data)
  else if env.dirty then ([], some dirtyTreeMsg)
  else
    let raw := stripWS fl.1
    if raw.isEmpty then
      ([], some "Usage: ship <id|title> || <instructions> --confirm SHIP".data)
    else
      let first := (pySplitWS raw).headD []
      if shipIdRegexMatches first then
        match parse_task_id first with
        | .error e => ([], some e)
        | .ok tid => ([.pipeline tid], none)
      else
        match parse_title_and_instructions raw with
        | .error e => ([], some e)
        | .ok ti => ([.createTask ti.1 ti.2, .pipeline env.newTaskId], none)

/-! ### outreach_ops.py: `send_outbox`, and the `send` subcommand branch of
`_handle_outreach` (bot.py lines 695-755) -/

/-- The flag state of the `outreach send` parse loop (bot.py lines 701-704). -/
structure SendFlags where
  limit : Nat
  dry_run : Bool
  approved_only : Bool
  confirm : Str
deriving DecidableEq

/-- The token loop of the `send` subcommand (bot.py lines 706-735). -/
def outreachSendFlagLoop : List Str → SendFlags → Except Str SendFlags
  | [], f => .ok f
  | tok :: rest, f =>
    if tok == "--limit".data then
      match rest with
      | v :: rest2 =>
        if isDigitStr v then outreachSendFlagLoop rest2 { f with limit := natOfDigits v }
        else .error "--limit requires a number.".data
      | [] => .error "--limit requires a number.".data
    else if tok == "--dry-run".data then
      outreachSendFlagLoop rest { f with dry_run := true }
    else if tok == "--send".data then
      outreachSendFlagLoop rest { f with dry_run := false }
    else if tok == "--approved-only".data then
      outreachSendFlagLoop rest { f with approved_only := true }
    else if tok == "--all".data then
      outreachSendFlagLoop rest { f with approved_only := false }
    else if tok == "--confirm".data then
      match rest with
      | v :: rest2 => outreachSendFlagLoop rest2 { f with confirm := v }
      | [] => outreachSendFlagLoop [] { f with confirm := [] }
    else .error ("Unknown flag: ".data ++ tok)

/-- Result of `send_outbox`: the rewritten rows, the returned
`(attempted, sent)` counters, and the emitted actions. -/
structure SendResult where
  rows : List Row
  attempted : Nat
  sent : Nat
  actions : List BotAction
deriving DecidableEq

/-- The row loop of `send_outbox` (outreach_ops.py lines 526-550).  `smtp a`
is the outcome of the `_smtp_send` call made on attempt number `a` when not
a dry run (`none` = delivered, `some err` = the exception text). -/
def sendGo (now : Str) (smtp : Nat → Option Str) (limit : Nat)
    (dry approvedOnly : Bool) : List Row → Nat → Nat → SendResult
  | [], a, s => ⟨[], a, s, []⟩
  | row :: rest, a, s =>
    let alreadySent := !(rowGet row "sent_at".data).isEmpty
    let approved := lowerStr (stripWS (rowGet row "approved".data)) == "yes".data
    if alreadySent then
      let r := sendGo now smtp limit dry approvedOnly rest a s
      { r with rows := row :: r.rows }
    else if approvedOnly && !approved then
      let r := sendGo now smtp limit dry approvedOnly rest a s
      { r with rows := row :: r.rows }
    else if limit ≤ a then
      let r := sendGo now smtp limit dry approvedOnly rest a s
      { r with rows := row :: r.rows }
    else if dry then
      let r := sendGo now smtp limit dry approvedOnly rest (a + 1) s
      { r with rows :=
          dictSet (dictSet row "sent_at".data []) "last_error".data [] :: r.rows }
    else
      match smtp a with
      | none =>
        let r := sendGo now smtp limit dry approvedOnly rest (a + 1) (s + 1)
        { r with
          rows := dictSet (dictSet row "sent_at".data now) "last_error".data [] :: r.rows
          actions := .smtpSend (rowGet row "to_email".data) :: r.actions }
      | some err =>
        let r := sendGo now smtp limit dry approvedOnly rest (a + 1) s
        { r with rows := dictSet row "last_error".data (err.take 500) :: r.rows }

/-- `send_outbox` (outreach_ops.py lines 520-553): process the rows, then
always rewrite the outbox file in place. -/
def send_outbox (now : Str) (smtp : Nat → Option Str) (rows : List Row)
    (limit : Nat) (dry approvedOnly : Bool) : SendResult :=
  let r := sendGo now smtp limit dry approvedOnly rows 0 0
  { r with actions := r.actions ++ [.writeOutbox r.rows] }

/-- The `send` subcommand branch of `_handle_outreach` (bot.py lines
695-755).  `rows` is the parsed content of the outbox file named by the
first token. -/
def handle_outreach_send (now : Str) (smtp : Nat → Option Str) (rest : Str)
    (rows : List Row) : List BotAction × Option Str :=
  match pySplitWS rest with
  | [] =>
    ([], some ("Usage: outreach send <outbox_csv_path> [--limit N] " ++
      "[--dry-run|--send] [--approved-only|--all] [--confirm SEND]").data)
  | _pathTok :: flagToks =>
    match outreachSendFlagLoop flagToks ⟨10, true, true, []⟩ with
    | .error e => ([], some e)
    | .ok f =>
      if f.dry_run = false ∧ upperStr (stripWS f.confirm) ≠ "SEND".data then
        ([], some "Refusing to send without `--confirm SEND`.".data)
      else
        let r := send_outbox now smtp rows f.limit f.dry_run f.approved_only
        (r.actions, none)

/-! ### bot.py: `_handle_do` (lines 760-796) with its count regex

The count regex at bot.py line 768 is the raw string `r"\\b(\\d{1,4})\\b"`:
its doubled backslashes are *literal* backslash characters, so the pattern
is literal `\`, `b`, then a group of a literal `\` followed by one to four
letters `d`, then literal `\`, `b`. -/

/-- Python `needle in hay` substring containment. -/
def containsSub (needle : Str) : Str → Bool
  | [] => needle.isPrefixOf ([] : Str)
  | c :: rest => needle.isPrefixOf (c :: rest) || containsSub needle rest

/-- Match of the (broken) count pattern at the start of `s`, returning the
captured group (greedy in the `d{1,4}` repetition). -/
def tryBrokenNumAt (s : Str) : Option Str :=
  match s with
  | '\\' :: 'b' :: '\\' :: rest =>
    let run := (rest.takeWhile fun c => c = 'd').length
    ((List.range' 1 (min run 4)).reverse.findSome? fun n =>
      if "\\b".data.isPrefixOf (rest.drop n) then
        some ('\\' :: List.replicate n 'd')
      else none)
  | _ => none

/-- `re.search` of the broken count pattern: first match, scanning left to
right. -/
def brokenNumSearch : Str → Option Str
  | [] => none
  | c :: rest =>
    match tryBrokenNumAt (c :: rest) with
    | some g => some g
    | none => brokenNumSearch rest

/-- The refusal message of `_handle_do` for non-housing requests. -/
def doUnsupportedMsg : Str :=
  ("For now, `do` only supports housing sponsor outreach. " ++
   "Try: `!kiroku do generate a list of 100 housing sponsors and draft emails`.").data

/-- `_handle_do` (bot.py lines 760-796), up to the generate/draft calls. -/
def handle_do (args : Str) : List BotAction × Option Str :=
  let text := stripWS args
  if text.isEmpty then ([], some "Usage: do <freeform request>".data)
  else
    let lower := lowerStr text
    let count :=
      match brokenNumSearch lower with
      | some g => if isDigitStr g then natOfDigits g else 50
      | none => 50
    if !(containsSub "housing".data lower || containsSub "hotel".data lower ||
        containsSub "accommodation".data lower) then
      ([], some doUnsupportedMsg)
    else
      ([.generateLeads count, .draftEmails], none)

/-! ### Refinement vocabulary for C4 (written from the claim's words) -/

/-- A row that `send` with `approved_only=true` would attempt: approved and
not already sent.  (Spec-side definition used to compare `send_outbox`
against the claim.) -/
def sendEligible (row : Row) : Bool :=
  (rowGet row "sent_at".data).isEmpty &&
    lowerStr (stripWS (rowGet row "approved".data)) == "yes".data

/-- The rows a dry `approved_only` send pass should produce according to the
claim, amended with the attempt cap `k`: the first `k` eligible rows get
empty `sent_at`/`last_error` fields written, every other row passes through
unchanged.  (Spec-side definition.) -/
def sendOutboxDrySpec (k : Nat) : List Row → List Row
  | [] => []
  | row :: rest =>
    if sendEligible row then
      match k with
      | 0 => row :: sendOutboxDrySpec 0 rest
      | k' + 1 =>
        dictSet (dictSet row "sent_at".data []) "last_error".data [] ::
          sendOutboxDrySpec k' rest
    else row :: sendOutboxDrySpec k rest

/-! ### codeops.py: diff validation, extraction and sanitization
(`_looks_like_unified_diff`, `_extract_unified_diff`, `_sanitize_diff_text`) -/

/-- Suffixes of `s` starting right after each `'\n'` (the non-initial
positions where `(?m)^` matches in Python `re`). -/
def afterNLSuffixes : Str → List Str
  | [] => []
  | c :: rest => (if c = '\n' then [rest] else []) ++ afterNLSuffixes rest

/-- Suffixes of `s` at every `(?m)^` position, in ascending position order. -/
def lineStartSuffixes (s : Str) : List Str := s :: afterNLSuffixes s

/-- First `(?m)^{lit}\s` match: the suffix at the first line start that
begins with `lit` followed by one whitespace character. -/
def findLineStartWS (lit : Str) (s : Str) : Option Str :=
  (lineStartSuffixes s).find? fun u =>
    lit.isPrefixOf u &&
      match u.drop lit.length with
      | c :: _ => isPyWS c
      | [] => false

/-- `_looks_like_unified_diff` (codeops.py lines 234-242). -/
def looks_like_unified_diff (text : Str) : Bool :=
  let candidate := stripWS text
  if candidate.isEmpty then false
  else if (findLineStartWS "diff --git".data candidate).isSome then true
  else
    (findLineStartWS "---".data candidate).isSome &&
      (findLineStartWS "+++".data candidate).isSome

/-- The `\s*\n` part of the fence pattern after the backticks (and optional
`diff`): a greedy whitespace run backtracked to its last `'\n'`; the lazy
group then runs to the first closing triple backtick. Returns the group and
the text after the closing fence. -/
def fenceAfterTicks (t : Str) : Option (Str × Str) :=
  let run := t.takeWhile isPyWS
  let afterNLrev := run.reverse.takeWhile fun c => c ≠ '\n'
  if afterNLrev.length = run.length then none
  else splitAtFirstSep "```".data (t.drop (run.length - afterNLrev.length))

/-- Match of the fenced-block pattern ```` ```(?:diff)?\s*\n(.*?)``` ````
(codeops.py line 250) anchored at the start of `s`: the optional `diff` is
greedy, with backtracking to the no-`diff` alternative. -/
def tryFenceAt (s : Str) : Option (Str × Str) :=
  if "```".data.isPrefixOf s then
    let t := s.drop 3
    match (if "diff".data.isPrefixOf t then fenceAfterTicks (t.drop 4) else none) with
    | some p => some p
    | none => fenceAfterTicks t
  else none

/-- `re.findall` scan for fenced blocks: try each position left to right,
continue after each non-overlapping match.  `fuel` bounds the scan by the
text length. -/
def fencedBlocksGo : Nat → Str → List Str
  | 0, _ => []
  | _ + 1, [] => []
  | fuel + 1, c :: rest =>
    match tryFenceAt (c :: rest) with
    | some p => p.1 :: fencedBlocksGo fuel p.2
    | none => fencedBlocksGo fuel rest

/-- All fenced blocks of `s`, in order. -/
def fencedBlocks (s : Str) : List Str := fencedBlocksGo s.length s

/-- First fenced block that looks like a diff, stripped (codeops.py lines
251-254). -/
def firstDiffBlock : List Str → Option Str
  | [] => none
  | b :: rest =>
    let b' := stripWS b
    if looks_like_unified_diff b' then some b' else firstDiffBlock rest

/-- First `(?m)^---\sa/` match (codeops.py line 260): suffix at the first
line start beginning with `---`, one whitespace character, then `a/`. -/
def findDashASuffix (s : Str) : Option Str :=
  (lineStartSuffixes s).find? fun u =>
    "---".data.isPrefixOf u &&
      match u.drop 3 with
      | c :: rest2 => isPyWS c && "a/".data.isPrefixOf rest2
      | [] => false

/-- `_extract_unified_diff` (codeops.py lines 244-265). -/
def extract_unified_diff (raw : Str) : Str :=
  let text := stripWS (replaceCRLF raw)
  if text.isEmpty then []
  else
    match firstDiffBlock (fencedBlocks text) with
    | some b => b ++ ['\n']
    | none =>
      match findLineStartWS "diff --git".data text with
      | some u => stripWS u ++ ['\n']
      | none =>
        match findDashASuffix text with
        | some u => stripWS u ++ ['\n']
        | none => stripWS text ++ ['\n']

/-- `_sanitize_diff_text` (codeops.py lines 267-280): normalize CRLF, strip
edge newlines, drop every line starting with `index `, re-join, strip edge
newlines again, and end with one newline. -/
def sanitize_diff_text (s : Str) : Str :=
  let text := stripBy (fun c => c = '\n') (replaceCRLF s)
  if (stripWS text).isEmpty then []
  else
    let lines := (pySplitlines text).filter fun ln => !("index ".data.isPrefixOf ln)
    let cleaned := stripBy (fun c => c = '\n') (joinNL lines)
    if cleaned.isEmpty then [] else cleaned ++ ['\n']

/-! ### codeops.py: the workflow operations (`plan_task`, `patch_task`,
`apply_task`, `commit_task`, `publish_task`, `fail_task`)

Each operation holds the store lock for its whole duration, so it is one
atomic step.  External inputs (the inferred file list from `git ls-files`,
the two model responses, git/verify outcomes, the commit sha, the remote
slug) are parameters; an operation that the source aborts with
`CodeOpsError` returns `.error` and performs no store write. -/

/-- `_is_placeholder_task` (codeops.py lines 282-287). -/
def is_placeholder_task (t : TaskRec) : Bool :=
  isBracketPlaceholder (stripWS t.title) ||
    isBracketPlaceholder (stripWS t.instructions) ||
    containsSub "<instructions>".data t.instructions

/-- `_infer_files_for_task` (codeops.py lines 216-232): an already-populated
file list wins; otherwise the result of the text/`git ls-files` inference
(external, passed in as `inferred`). -/
def infer_files_for_task (t : TaskRec) (inferred : List Str) : List Str :=
  if !t.files.isEmpty then t.files else inferred

/-- `_fallback_plan` (codeops.py lines 500-510). -/
def fallback_plan (files : List Str) : Str :=
  let fileLines :=
    if files.isEmpty then "- determine impacted files".data
    else joinNL (files.map fun p => "- ".data ++ p)
  ("1. Confirm scope and expected behavior from task instructions.\n" ++
   "2. Update targeted files with minimal, testable changes.\n" ++
   "3. Run verification command (if configured) and inspect git diff.\n" ++
   "4. Commit on task branch and publish PR.\n" ++
   "\n" ++
   "Likely files:\n").data ++ fileLines

/-- The placeholder refusal of `plan_task` (codeops.py lines 344-348). -/
def planPlaceholderMsg : Str :=
  ("Task looks like placeholders (`<title>` / `<instructions>`). " ++
   "Create a new task with real instructions, e.g. " ++
   "`!kiroku task Add ping command || Add a read command ping that replies pong.`").data

/-- The placeholder refusal of `patch_task` (codeops.py lines 367-370). -/
def patchPlaceholderMsg : Str :=
  ("Task looks like placeholders (`<title>` / `<instructions>`). " ++
   "Create a new task with real instructions, then run diff/run again.").data

/-- The missing-provider refusal of `patch_task` (codeops.py lines 377-379). -/
def noProviderMsg : Str :=
  ("No LLM provider configured. Set ANTHROPIC_API_KEY or OPENAI_API_KEY " ++
   "in .env to enable patch generation.").data

/-- The first 20 lines of the second model response (codeops.py line 391). -/
def patchFailPreview (raw2 : Str) : Str :=
  joinNL ((pySplitlines (stripWS raw2)).take 20)

/-- The invalid-diff failure message of `patch_task` (codeops.py lines
392-396), which embeds the first lines of the second attempt. -/
def patchFailMsg (raw2 : Str) : Str :=
  ("Model output did not contain a valid unified diff. " ++
   "Try narrowing scope and naming target files. " ++
   "First lines of output:\n").data ++ patchFailPreview raw2

/-- `plan_task` (codeops.py lines 340-361) on the loaded task.  `llm` is the
provider's plan when one is configured, `none` selects the deterministic
fallback. -/
def plan_task (t : TaskRec) (inferred : List Str) (llm : Option Str)
    (now : Str) : Except Str TaskRec :=
  if is_placeholder_task t then .error planPlaceholderMsg
  else
    let files := infer_files_for_task t inferred
    let planText :=
      match llm with
      | some p => p
      | none => fallback_plan files
    .ok { t with files := files, plan := planText, status := "planned".data,
                 updated_at := now, last_error := [] }

/-- `patch_task` (codeops.py lines 363-404) on the loaded task, returning
the number of model calls made and the outcome.  `raw1` is the lenient
response, `raw2` the stricter retry's response; `avail` is
`_llm_available()`. -/
def patch_task_core (t : TaskRec) (inferred : List Str) (raw1 raw2 : Str)
    (avail : Bool) (now : Str) : Nat × Except Str TaskRec :=
  if is_placeholder_task t then (0, .error patchPlaceholderMsg)
  else
    let t1 :=
      if t.plan.isEmpty then
        let files := infer_files_for_task t inferred
        { t with plan := fallback_plan files, files := files }
      else t
    if !avail then (0, .error noProviderMsg)
    else
      let c1 := sanitize_diff_text (extract_unified_diff raw1)
      if looks_like_unified_diff c1 then
        (1, .ok { t1 with patch := c1, status := "patched".data,
                          updated_at := now, last_error := [] })
      else
        let c2 := sanitize_diff_text (extract_unified_diff raw2)
        if looks_like_unified_diff c2 then
          (2, .ok { t1 with patch := c2, status := "patched".data,
                            updated_at := now, last_error := [] })
        else (2, .error (patchFailMsg raw2))

/-- `_get_task_unlocked` (codeops.py lines 473-477). -/
def findTask (st : TaskStore) (tid : Nat) : Option TaskRec :=
  st.tasks.find? fun t => t.task_id == tid

/-- The not-found message of the task lookups. -/
def taskNotFoundMsg (tid : Nat) : Str :=
  "Task ".data ++ natDigits tid ++ " not found.".data

/-- Store-level `patch_task`: look the task up, run the patch step, and
persist only on success. -/
def patch_task (st : TaskStore) (tid : Nat) (inferred : List Str)
    (raw1 raw2 : Str) (avail : Bool) (now : Str) :
    Nat × TaskStore × Except Str TaskRec :=
  match findTask st tid with
  | none => (0, st, .error (taskNotFoundMsg tid))
  | some t =>
    let r := patch_task_core t inferred raw1 raw2 avail now
    match r.2 with
    | .ok t' => (r.1, upsert_task st t', .ok t')
    | .error e => (r.1, st, .error e)

/-- `apply_task` (codeops.py lines 409-425) on the loaded task.  The git
branch preparation, the `git apply`, and the optional verification command
are external; `none` means the step succeeded (or, for `verifyErr`, that no
verify command is configured). -/
def apply_task (t : TaskRec) (gitPrepErr applyErr verifyErr : Option Str)
    (now : Str) : Except Str TaskRec :=
  if (stripWS t.patch).isEmpty then
    .error "Task has no patch. Run patch step first.".data
  else
    match gitPrepErr with
    | some e => .error e
    | none =>
      match applyErr with
      | some e => .error ("Patch apply failed: ".data ++ e)
      | none =>
        match verifyErr with
        | some e => .error e
        | none =>
          .ok { t with status := "applied".data, updated_at := now,
                       last_error := [] }

/-- `commit_task` (codeops.py lines 427-446) on the loaded task.  The
commit message itself only feeds the external `git commit` call. -/
def commit_task (t : TaskRec) (gitErr : Option Str) (staged : Bool)
    (sha : Str) (now : Str) : Except Str TaskRec :=
  match gitErr with
  | some e => .error e
  | none =>
    if !staged then .error "No staged changes to commit.".data
    else
      .ok { t with commit_sha := sha, status := "committed".data,
                   updated_at := now, last_error := [] }

/-- `publish_task` (codeops.py lines 448-463) on the loaded task.  `slug` is
the outcome of `_remote_slug` (which shells out to `git remote get-url`). -/
def publish_task (t : TaskRec) (pushErr : Option Str) (slug : Except Str Str)
    (base : Str) (now : Str) : Except Str TaskRec :=
  match pushErr with
  | some e => .error e
  | none =>
    match slug with
    | .error e => .error e
    | .ok sl =>
      .ok { t with
            compare_url := "https://github.com/".data ++ sl ++ "/compare/".data ++
              base ++ "...".data ++ t.branch ++ "?expand=1".data
            status := "published".data
            updated_at := now
            last_error := [] }

/-- `fail_task` (codeops.py lines 465-471) on the loaded task. -/
def fail_task (t : TaskRec) (error : Str) (now : Str) : TaskRec :=
  { t with status := "failed".data, last_error := error.take 2000,
           updated_at := now }

/-- One workflow operation together with its external inputs. -/
inductive WorkOp where
  | planOp (inferred : List Str) (llm : Option Str) (now : Str)
  | patchOp (inferred : List Str) (raw1 raw2 : Str) (avail : Bool) (now : Str)
  | applyOp (gitPrepErr applyErr verifyErr : Option Str) (now : Str)
  | commitOp (gitErr : Option Str) (staged : Bool) (sha : Str) (now : Str)
  | publishOp (pushErr : Option Str) (slug : Except Str Str) (base : Str) (now : Str)

/-- Run one workflow operation on a task. -/
def applyWorkOp : WorkOp → TaskRec → Except Str TaskRec
  | .planOp inferred llm now, t => plan_task t inferred llm now
  | .patchOp inferred raw1 raw2 avail now, t =>
    (patch_task_core t inferred raw1 raw2 avail now).2
  | .applyOp a b c now, t => apply_task t a b c now
  | .commitOp g s sha now, t => commit_task t g s sha now
  | .publishOp p sl base now, t => publish_task t p sl base now

/-- The `_iso_now()` timestamp an operation would store. -/
def opNow : WorkOp → Str
  | .planOp _ _ now => now
  | .patchOp _ _ _ _ now => now
  | .applyOp _ _ _ now => now
  | .commitOp _ _ _ now => now
  | .publishOp _ _ _ now => now

/-- One store event against a task: a workflow operation (persisted only on
success) or a `fail_task` report from the dispatch boundary. -/
inductive StoreEvent where
  | op (o : WorkOp)
  | failEv (error now : Str)

/-- One event step: the stored task plus which kind of event last wrote it
(`some true` = `fail_task`, `some false` = a successful operation, `none` =
nothing written yet). -/
def runTraceStep (acc : TaskRec × Option Bool) (e : StoreEvent) :
    TaskRec × Option Bool :=
  match e with
  | .op o =>
    match applyWorkOp o acc.1 with
    | .ok t' => (t', some false)
    | .error _ => acc
  | .failEv err now => (fail_task acc.1 err now, some true)

/-- Run a sequence of store events on a task. -/
def runTrace (events : List StoreEvent) (t0 : TaskRec) : TaskRec × Option Bool :=
  events.foldl runTraceStep (t0, none)

/-! ### outreach_ops.py: the housing template loader and substitution
(`_load_housing_template`, `_substitute`)

The loader's regex at outreach_ops.py line 417 is the raw string
`r"(?ms)^## Template D: Housing Partner.*?^Subject:\\s*(.*?)\\n\\n(.*?)(?=^##\\s)"`:
every doubled backslash is a *literal* backslash character, so after
`Subject:` the pattern requires a literal `\`, the two-character sequences
`\n\n` written out as backslash-n-backslash-n, and a lookahead `##` followed
by a literal `\` and `s`. The substitution regex at line 432,
`r"\\{\\{\\s*([a-zA-Z0-9_]+)\\s*\\}\\}"`, likewise requires literal
backslashes around the braces. -/

/-- Splits of `s` at each `(?m)^` position after a `'\n'`: the part up to
and including the `'\n'`, and the suffix at the line start. -/
def lineStartSplits : Str → List (Str × Str)
  | [] => []
  | c :: rest =>
    let tails := (lineStartSplits rest).map fun p => (c :: p.1, p.2)
    if c = '\n' then ([c], rest) :: tails else tails

/-- Splits of `s` at every occurrence of `needle`, left to right: the part
before the occurrence and the part after it. -/
def sepSplits (needle : Str) : Str → List (Str × Str)
  | [] => if needle.isPrefixOf ([] : Str) then [([], [])] else []
  | c :: rest =>
    let tails := (sepSplits needle rest).map fun p => (c :: p.1, p.2)
    if needle.isPrefixOf (c :: rest) then
      ([], (c :: rest).drop needle.length) :: tails
    else tails

/-- Backtracking match of the (broken) housing-template pattern: tries
every `^` position for the header, every later `^` position for
`Subject:`, then requires the literal backslash, the literal
backslash-n-backslash-n separator, and the `##\s`-as-literals lookahead at
a later line start, returning the two captured groups of the first
succeeding assignment. -/
def brokenHousingMatch (text : Str) : Option (Str × Str) :=
  (lineStartSuffixes text).findSome? fun u =>
    if "## Template D: Housing Partner".data.isPrefixOf u then
      (lineStartSplits (u.drop 30)).findSome? fun kv =>
        if "Subject:".data.isPrefixOf kv.2 then
          match kv.2.drop 8 with
          | '\\' :: w =>
            let w2 := w.dropWhile fun c => c = 's'
            (sepSplits "\\n\\n".data w2).findSome? fun mp =>
              (lineStartSplits mp.2).findSome? fun qp =>
                if "##\\s".data.isPrefixOf qp.2 then some (mp.1, qp.1) else none
          | _ => none
        else none
    else none

/-- `_load_housing_template` (outreach_ops.py lines 410-425).  `fileContent`
is the template file's text, `none` when the file is absent. -/
def load_housing_template (fileContent : Option Str) : Except Str (Str × Str) :=
  match fileContent with
  | none =>
    .error "Missing template file: website/sponsorship_first_contact_emails.md".data
  | some text =>
    match brokenHousingMatch text with
    | none =>
      .error ("Housing template not found in sponsorship_first_contact_emails.md. " ++
        "Expected a section header like `## Template D: Housing Partner`.").data
    | some g => .ok (stripWS g.1, stripWS g.2)

/-- Match of the (broken) placeholder pattern at the start of `s`,
returning the captured key and the rest after the match.  The greedy `s*`
runs back off by at most one character when the key would otherwise be
empty (an `s` is itself a word character). -/
def tryBrokenPlaceholderAt (s : Str) : Option (Str × Str) :=
  match s with
  | '\\' :: '\x7b' :: '\\' :: '\x7b' :: '\\' :: w =>
    let sRun := w.takeWhile fun c => c = 's'
    let w1 := w.drop sRun.length
    let key0 := w1.takeWhile isWordChar
    let key := if !key0.isEmpty then key0
      else if !sRun.isEmpty then ['s'] else []
    if key.isEmpty then none
    else
      let afterKey := if !key0.isEmpty then w1.drop key0.length else w1
      match afterKey with
      | '\\' :: w2 =>
        match w2.dropWhile fun c => c = 's' with
        | '\\' :: '\x7d' :: '\\' :: '\x7d' :: rest2 => some (key, rest2)
        | _ => none
      | _ => none
  | _ => none

/-- `re.sub` worker for `_substitute`: scan left to right, replacing each
non-overlapping match via `vals` (the `values.get(key, "") or ""` lookup on
the stripped key), copying unmatched characters. -/
def substituteGo (vals : Str → Str) : Nat → Str → Str
  | 0, s => s
  | _ + 1, [] => []
  | fuel + 1, c :: rest =>
    match tryBrokenPlaceholderAt (c :: rest) with
    | some p => vals (stripWS p.1) ++ substituteGo vals fuel p.2
    | none => c :: substituteGo vals fuel rest

/-- `_substitute` (outreach_ops.py lines 427-432). -/
def substitute (vals : Str → Str) (text : Str) : Str :=
  substituteGo vals (text.length + 1) text

/-- A template file text that satisfies the spec's template contract: the
`## Template D: Housing Partner` heading, a `Subject:` line, a blank line,
a body, and a following `##` heading. -/
def goodHousingTemplate : Str :=
  ("## Template D: Housing Partner\n" ++
   "Subject: Partnership with \x7b\x7bcompany\x7d\x7d\n" ++
   "\n" ++
   "Hello \x7b\x7bfirst_name\x7d\x7d, we would love to work with " ++
   "\x7b\x7bcompany\x7d\x7d.\n" ++
   "\n" ++
   "## Template E: Other\n").data

/-- A concrete store with one real (non-placeholder) task, used to witness
the patch-retry theorem. -/
def sampleTask : TaskRec :=
  { task_id := 1, title := "Add ping".data, instructions := "Reply pong".data,
    requested_by := "user".data, requested_by_id := "9".data,
    status := "new".data, branch := "codex/task-1".data,
    created_at := "T0".data, updated_at := "T0".data }

/-- The store holding `sampleTask`. -/
def sampleStore : TaskStore := { next_id := 2, tasks := [sampleTask] }

/-- The task `plan_task` stores for `sampleTask` with no provider at time
`T2` (used to witness the workflow-success theorem). -/
def samplePlanned : TaskRec :=
  { sampleTask with plan := fallback_plan [], status := "planned".data,
                    updated_at := "T2".data, last_error := [] }

/-! ### Helper lemmas -/

theorem upsertTasks_append (l : List TaskRec) (t : TaskRec)
    (h : ∀ u ∈ l, u.task_id ≠ t.task_id) : upsertTasks l t = l ++ [t] := by
  induction l with
  | nil => rfl
  | cons x rest ih =>
    have hx : x.task_id ≠ t.task_id := h x (List.mem_cons_self x rest)
    simp only [upsertTasks, if_neg hx, List.cons_append]
    exact congrArg (x :: ·) (ih fun u hu => h u (List.mem_cons_of_mem x hu))

theorem mem_range'_one_lt {m n : Nat} (h : m ∈ List.range' 1 n) : m < n + 1 := by
  obtain ⟨i, hi, rfl⟩ := List.mem_range'.mp h
  omega

theorem createSeq_invariant (infer : Str → List Str) (params : Nat → CreateParams) :
    ∀ n : Nat,
      (createSeq infer params n initialStore).next_id = n + 1 ∧
      (createSeq infer params n initialStore).tasks.map TaskRec.task_id =
        List.range' 1 n := by
  intro n
  induction n with
  | zero => exact ⟨rfl, rfl⟩
  | succ n ih =>
    obtain ⟨hid, hmap⟩ := ih
    set st := createSeq infer params n initialStore with hst
    set t := (create_task infer st (params n)).2 with ht
    have htid : t.task_id = st.next_id := rfl
    have hfresh : ∀ u ∈ st.tasks, u.task_id ≠ t.task_id := by
      intro u hu
      have hmem : u.task_id ∈ List.range' 1 n := by
        rw [← hmap]; exact List.mem_map_of_mem TaskRec.task_id hu
      have hlt : u.task_id < n + 1 := mem_range'_one_lt hmem
      rw [htid, hid]; omega
    have happ := upsertTasks_append st.tasks t hfresh
    have hstep : createSeq infer params (n + 1) initialStore =
        upsert_task { st with next_id := st.next_id + 1 } t := rfl
    constructor
    · rw [hstep]; simp [upsert_task, hid]
    · rw [hstep]
      simp only [upsert_task]
      rw [happ]
      simp only [List.map_append, hmap, List.map_cons, List.map_nil]
      rw [List.range'_1_concat, htid, hid]
      simp [Nat.add_comm]

/-! ### Claim theorems: C2 and C3 -/

/-- C2: for every mutating command issued from an eligible channel (by a
non-bot author), an empty allowed-user set dispatches the command to its
engine handler for any author (bootstrap mode), while a non-empty
allowed-user set not containing the author yields the authorization-refusal
reply and invokes no engine handler. -/
theorem C2_channel_user_authorization
    (adminChannelIds allowedUserIds : List Nat) (channelId authorId : Nat)
    (command args : Str)
    (helig : is_admin_channel adminChannelIds channelId = true)
    (hmut : MUTATING_COMMANDS.contains (stripWS (lowerStr command)) = true) :
    (allowedUserIds = [] →
      message_command_outcome adminChannelIds allowedUserIds false channelId
          authorId command args =
        some (.engine (stripWS (lowerStr command)) args)) ∧
    (allowedUserIds ≠ [] → allowedUserIds.contains authorId = false →
      message_command_outcome adminChannelIds allowedUserIds false channelId
          authorId command args =
        some (.unauthorized
          (unauthorizedMessage authorId (stripWS (lowerStr command)))) ∧
      ∀ c a, message_command_outcome adminChannelIds allowedUserIds false
          channelId authorId command args ≠ some (.engine c a)) := by
  have hmem : stripWS (lowerStr command) ∈ MUTATING_COMMANDS := by
    simpa using hmut
  have hread : stripWS (lowerStr command) ∉ READ_COMMANDS := by
    simp only [MUTATING_COMMANDS, List.mem_cons, List.not_mem_nil, or_false]
      at hmem
    rcases hmem with h | h | h | h | h | h | h | h | h | h | h | h <;>
      rw [h] <;> decide
  constructor
  · intro hempty
    simp [message_command_outcome, helig, dispatch_command, hread, hmem,
      is_allowed_user, hempty]
  · intro hne hnotin
    have hnotin' : authorId ∉ allowedUserIds := by simpa using hnotin
    have hnotallowed : is_allowed_user allowedUserIds authorId = false := by
      simp [is_allowed_user, hne, hnotin']
    constructor
    · simp [message_command_outcome, helig, dispatch_command, hread, hmem,
        hnotallowed]
    · intro c a
      simp [message_command_outcome, helig, dispatch_command, hread, hmem,
        hnotallowed]

/-- C2 witness: concrete instances of both branches (empty allow-list
dispatches; non-empty allow-list without the author refuses). -/
theorem C2_channel_user_authorization_witness :
    message_command_outcome [] [] false 5 9 "task".data "T || I".data =
      some (.engine "task".data "T || I".data) ∧
    (message_command_outcome [] [7] false 5 9 "task".data "T || I".data =
      some (.unauthorized (unauthorizedMessage 9 "task".data)) ∧
    ∀ c a, message_command_outcome [] [7] false 5 9 "task".data "T || I".data ≠
      some (.engine c a)) := by
  refine ⟨?_, ?_⟩
  · exact (C2_channel_user_authorization [] [] 5 9 "task".data "T || I".data
      (by decide) (by decide)).1 rfl
  · exact (C2_channel_user_authorization [] [7] 5 9 "task".data "T || I".data
      (by decide) (by decide)).2 (by decide) (by decide)

/-- C3: starting from the initial store `{next_id: 1, tasks: []}`, `n`
sequential `create_task` calls (serialized by the store lock) produce tasks
whose ids are exactly `1, 2, ..., n`, with no gaps and no repeats, for any
argument stream and any file-inference environment. -/
theorem C3_task_id_monotonicity (infer : Str → List Str)
    (params : Nat → CreateParams) (n : Nat) :
    (createSeq infer params n initialStore).tasks.map TaskRec.task_id =
      List.range' 1 n :=
  (createSeq_invariant infer params n).2

/-- C6: code-bug evidence.  `"12"` is a valid task-id token
(`parse_task_id` accepts it), but the ship-target test at bot.py line 524
(regex `r"^#?\\d+\\b"`, whose doubled backslashes require literal
backslashes) rejects it, so `ship 12 --confirm SHIP` creates a brand-new
task titled `12` and runs the pipeline on the fresh id instead of running
on existing task 12 without creating anything. -/
theorem C6_ship_target_code_bug :
    shipIdRegexMatches "12".data = false ∧
    parse_task_id "12".data = .ok 12 ∧
    handle_ship ⟨false, 42⟩ "12 --confirm SHIP".data =
      ([.createTask "12".data "12".data, .pipeline 42], none) := by
  exact ⟨rfl, rfl, rfl⟩

/-- C7: code-bug evidence.  The count regex at bot.py line 768
(`r"\\b(\\d{1,4})\\b"`, doubled backslashes, so it only matches literal
backslash sequences) never extracts `100` from the text, so the lead count
stays at the default 50; the housing-keyword refusal does fire before any
lead generation. -/
theorem C7_do_count_code_bug :
    handle_do "generate 100 housing leads".data =
      ([.generateLeads 50, .draftEmails], none) ∧
    handle_do "generate 7 beverage sponsors".data = ([], some doUnsupportedMsg) := by
  decide

/-- C1 counterexample: `outreach send out.csv --send --dry-run` has the
`--send` token and no `--confirm SEND`, yet no error is raised and the
outbox file is rewritten (each attempted row even gets its `last_error`
field cleared), because the later `--dry-run` resets the mode and the
confirmation check only guards the non-dry mode. -/
theorem C1_confirmation_gating_counterexample :
    (pySplitWS "out.csv --send --dry-run".data).contains "--send".data = true ∧
    (pySplitWS "out.csv --send --dry-run".data).contains "--confirm".data = false ∧
    handle_outreach_send [] (fun _ => none) "out.csv --send --dry-run".data
        [[("approved".data, "yes".data)]] =
      ([.writeOutbox [[("approved".data, "yes".data), ("sent_at".data, []),
        ("last_error".data, [])]]], none) := by
  decide

/-- C4 counterexample: with eleven approved, unsent rows the dry
`approved-only` pass with `limit=10` attempts only ten of them, so
`attempted` is not "the number of approved-and-unsent rows" as the claim
states for every outbox. -/
theorem C4_outbox_dry_run_counterexample :
    (send_outbox [] (fun _ => none)
        (List.replicate 11 [("approved".data, "yes".data)]) 10 true true).attempted = 10 ∧
    (List.replicate 11 [("approved".data, "yes".data)]).countP
        (fun r => sendEligible r) = 11 := by
  decide

theorem sendGo_dry_spec (now : Str) (smtp : Nat → Option Str) (limit : Nat)
    (rows : List Row) : ∀ a s : Nat, a ≤ limit →
    sendGo now smtp limit true true rows a s =
      ⟨sendOutboxDrySpec (limit - a) rows,
       a + min (limit - a) (rows.countP fun r => sendEligible r), s, []⟩ := by
  induction rows with
  | nil => intro a s _; simp [sendGo, sendOutboxDrySpec]
  | cons row rest ih =>
    intro a s ha
    by_cases hsent : (rowGet row "sent_at".data).isEmpty = true
    · by_cases happr :
        (lowerStr (stripWS (rowGet row "approved".data)) == "yes".data) = true
      · have helig : sendEligible row = true := by
          simp [sendEligible, hsent, happr]
        by_cases hlim : limit ≤ a
        · have hz : limit - a = 0 := by omega
          simp only [sendGo, hsent, happr, hlim, hz, Bool.not_true,
            Bool.true_and, Bool.false_eq_true, if_false, if_true, ite_true,
            ite_false]
          rw [ih a s ha, hz]
          simp [sendOutboxDrySpec, helig]
        · have ha' : a + 1 ≤ limit := by omega
          have hk : limit - a = (limit - a - 1) + 1 := by omega
          simp only [sendGo, hsent, happr, hlim, Bool.not_true, Bool.true_and,
            Bool.false_eq_true, if_false, if_true, ite_true, ite_false]
          rw [ih (a + 1) s ha']
          rw [hk]
          simp only [sendOutboxDrySpec, helig, if_true, List.countP_cons,
            SendResult.mk.injEq, true_and, and_true]
          rw [Nat.succ_min_succ, Nat.sub_sub]
          exact ⟨rfl, by omega⟩
      · have happr' :
            (lowerStr (stripWS (rowGet row "approved".data)) == "yes".data) = false :=
          by simpa using happr
        have helig : sendEligible row = false := by
          simp [sendEligible, happr']
        simp only [sendGo, hsent, happr', Bool.not_true, Bool.not_false,
          Bool.true_and, Bool.false_eq_true, if_false, if_true, ite_true,
          ite_false]
        rw [ih a s ha]
        simp only [sendOutboxDrySpec, helig, if_false, List.countP_cons,
          SendResult.mk.injEq, true_and, and_true, Bool.false_eq_true,
          Nat.add_zero]
    · have hsent' : (rowGet row "sent_at".data).isEmpty = false := by
        simpa using hsent
      have helig : sendEligible row = false := by
        simp [sendEligible, hsent']
      simp only [sendGo, hsent', Bool.not_false, if_true, ite_true]
      rw [ih a s ha]
      simp only [sendOutboxDrySpec, helig, if_false, List.countP_cons,
        SendResult.mk.injEq, true_and, and_true, Bool.false_eq_true,
        Nat.add_zero]

/-- C4 (amended): for every outbox, `send_outbox` with `approved_only=true`,
`limit=10`, `dry_run=true` attempts exactly the approved-and-unsent rows up
to the first ten of them (all of them when at most ten exist, as in the
claim's five-row example), writes empty `sent_at`/`last_error` fields on
exactly those rows, passes every other row through unchanged, reports
`attempted = min 10 count` and `sent = 0`, contacts no mail relay, and
rewrites the outbox file. -/
theorem C4_outbox_dry_run_amended (now : Str) (smtp : Nat → Option Str)
    (rows : List Row) :
    (send_outbox now smtp rows 10 true true).rows = sendOutboxDrySpec 10 rows ∧
    (send_outbox now smtp rows 10 true true).attempted =
      min 10 (rows.countP fun r => sendEligible r) ∧
    (send_outbox now smtp rows 10 true true).sent = 0 ∧
    (send_outbox now smtp rows 10 true true).actions =
      [.writeOutbox (sendOutboxDrySpec 10 rows)] := by
  have h := sendGo_dry_spec now smtp 10 rows 0 0 (by omega)
  simp [send_outbox, h]

/-- C1 (amended): `deploy` whose stripped argument string is not the token
`--confirm DEPLOY` (case-insensitively) is refused before any state-changing
action (no checkout, no pull, no restart); `ship` whose arguments lack a
`--confirm` token whose value is `SHIP` (case-insensitively) is refused
before any state-changing action (no task creation, no pipeline); and
`outreach send` whose parsed flags leave it in send mode (its last
`--send`/`--dry-run` flag being `--send`) without a `--confirm SEND` token
is refused before any state-changing action (no mail-relay contact, no
outbox rewrite).  The amendment restricts the third part to send mode: a
`--dry-run` after `--send` makes the command proceed as a dry run, which
still rewrites the outbox (see the counterexample). -/
theorem C1_confirmation_gating_amended :
    (∀ (dirty : Bool) (args : Str),
        upperStr (stripWS (stripWS args)) ≠ "--CONFIRM DEPLOY".data →
        handle_deploy dirty args =
          ([], some "Usage: deploy --confirm DEPLOY".data)) ∧
    (∀ (env : ShipEnv) (args : Str),
        (strip_confirm_flag args "SHIP".data).2 = false →
        handle_ship env args =
          ([], some "Refusing to ship without `--confirm SHIP`.".data)) ∧
    (∀ (now : Str) (smtp : Nat → Option Str) (rest : Str) (rows : List Row)
        (pathTok : Str) (flagToks : List Str) (f : SendFlags),
        pySplitWS rest = pathTok :: flagToks →
        outreachSendFlagLoop flagToks ⟨10, true, true, []⟩ = .ok f →
        f.dry_run = false →
        upperStr (stripWS f.confirm) ≠ "SEND".data →
        handle_outreach_send now smtp rest rows =
          ([], some "Refusing to send without `--confirm SEND`.".data)) := by
  refine ⟨?_, ?_, ?_⟩
  · intro dirty args h
    simp [handle_deploy, h]
  · intro env args h
    simp [handle_ship, h]
  · intro now smtp rest rows pathTok flagToks f h1 h2 h3 h4
    simp [handle_outreach_send, h1, h2, h3, h4]

/-- C1 witness: each refusal branch of the amended theorem at a concrete
input. -/
theorem C1_confirmation_gating_witness :
    handle_deploy false "now".data =
      ([], some "Usage: deploy --confirm DEPLOY".data) ∧
    handle_ship ⟨false, 1⟩ "fix the bug".data =
      ([], some "Refusing to ship without `--confirm SHIP`.".data) ∧
    handle_outreach_send [] (fun _ => none) "out.csv --send".data [] =
      ([], some "Refusing to send without `--confirm SEND`.".data) := by
  refine ⟨?_, ?_, ?_⟩
  · exact C1_confirmation_gating_amended.1 false "now".data (by decide)
  · exact C1_confirmation_gating_amended.2.1 ⟨false, 1⟩ "fix the bug".data
      (by decide)
  · exact C1_confirmation_gating_amended.2.2 [] (fun _ => none)
      "out.csv --send".data [] "out.csv".data ["--send".data]
      ⟨10, false, true, []⟩ (by decide) rfl rfl (by decide)

/-- C5: code-bug evidence.  The template regex at outreach_ops.py line 417
requires literal backslash characters (its raw string doubles every
backslash), so a template file that satisfies the spec's contract exactly
(`## Template D: Housing Partner` heading, `Subject:` line, blank line,
body, next `##` heading) is reported as "Housing template not found" —
contradicting the code's own error message, which cites precisely that
heading.  The placeholder regex at line 432 is broken the same way, so
`{{company}}` would survive substitution untouched. -/
theorem C5_housing_template_code_bug :
    load_housing_template (some goodHousingTemplate) =
      .error ("Housing template not found in sponsorship_first_contact_emails.md. " ++
        "Expected a section header like `## Template D: Housing Partner`.").data ∧
    substitute (fun key => if key = "company".data then "Acme".data else [])
      "\x7b\x7bcompany\x7d\x7d".data = "\x7b\x7bcompany\x7d\x7d".data := by
  exact ⟨rfl, rfl⟩

/-- C8: when the first model response does not yield a valid unified diff
after extraction and sanitization, `patch_task` makes exactly one stricter
retry (two model calls in total); if the retry's output is also not a valid
diff, the operation fails with the data error embedding the first lines of
the second attempt, and the store is left unchanged (in particular the task
is not stored with status `patched`). -/
theorem C8_patch_retry_gate (st : TaskStore) (tid : Nat) (t : TaskRec)
    (inferred : List Str) (raw1 raw2 : Str) (now : Str)
    (hfind : findTask st tid = some t)
    (hph : is_placeholder_task t = false)
    (h1 : looks_like_unified_diff (sanitize_diff_text (extract_unified_diff raw1))
      = false) :
    (patch_task st tid inferred raw1 raw2 true now).1 = 2 ∧
    (looks_like_unified_diff (sanitize_diff_text (extract_unified_diff raw2))
        = false →
      (patch_task st tid inferred raw1 raw2 true now).2.2 =
        .error (patchFailMsg raw2) ∧
      (patch_task st tid inferred raw1 raw2 true now).2.1 = st) := by
  by_cases h2 : looks_like_unified_diff
      (sanitize_diff_text (extract_unified_diff raw2)) = true
  · constructor
    · simp [patch_task, hfind, patch_task_core, hph, h1, h2]
    · intro h2'
      rw [h2'] at h2
      exact absurd h2 (by simp)
  · have h2' : looks_like_unified_diff
        (sanitize_diff_text (extract_unified_diff raw2)) = false := by
      simpa using h2
    refine ⟨?_, fun _ => ⟨?_, ?_⟩⟩ <;>
      simp [patch_task, hfind, patch_task_core, hph, h1, h2']

/-- C8 witness: prose responses on both attempts at a concrete store. -/
theorem C8_patch_retry_gate_witness :
    (patch_task sampleStore 1 [] "I cannot produce that.".data
        "Here is prose only.".data true "T1".data).1 = 2 ∧
    (patch_task sampleStore 1 [] "I cannot produce that.".data
        "Here is prose only.".data true "T1".data).2.2 =
      .error (patchFailMsg "Here is prose only.".data) ∧
    (patch_task sampleStore 1 [] "I cannot produce that.".data
        "Here is prose only.".data true "T1".data).2.1 = sampleStore := by
  have h := C8_patch_retry_gate sampleStore 1 sampleTask []
    "I cannot produce that.".data "Here is prose only.".data "T1".data
    rfl (by decide) (by decide)
  exact ⟨h.1, (h.2 (by decide)).1, (h.2 (by decide)).2⟩

theorem runTrace_invariant (events : List StoreEvent) :
    ∀ acc : TaskRec × Option Bool,
      (acc.1.last_error ≠ [] → acc.2 = some true) →
      ((events.foldl runTraceStep acc).1.last_error ≠ [] →
        (events.foldl runTraceStep acc).2 = some true) := by
  induction events with
  | nil => intro acc h; exact h
  | cons e rest ih =>
    intro acc h
    apply ih
    match e with
    | .failEv err now => intro _; rfl
    | .op o =>
      intro hne
      simp only [runTraceStep] at hne ⊢
      match hop : applyWorkOp o acc.1 with
      | .ok t' =>
        rw [hop] at hne
        exfalso
        have hclear : t'.last_error = [] := by
          cases o with
          | planOp inferred llm now =>
            simp only [applyWorkOp, plan_task] at hop
            split at hop
            · exact absurd hop (by simp)
            · exact (Except.ok.injEq _ _).mp hop ▸ rfl
          | patchOp inferred raw1 raw2 avail now =>
            simp only [applyWorkOp, patch_task_core] at hop
            split at hop
            · exact absurd hop (by simp)
            · split at hop
              · exact absurd hop (by simp)
              · split at hop
                · exact (Except.ok.injEq _ _).mp hop ▸ rfl
                · split at hop
                  · exact (Except.ok.injEq _ _).mp hop ▸ rfl
                  · exact absurd hop (by simp)
          | applyOp a b c now =>
            simp only [applyWorkOp, apply_task] at hop
            split at hop
            · exact absurd hop (by simp)
            · split at hop
              · exact absurd hop (by simp)
              · split at hop
                · exact absurd hop (by simp)
                · split at hop
                  · exact absurd hop (by simp)
                  · exact (Except.ok.injEq _ _).mp hop ▸ rfl
          | commitOp g s sha now =>
            simp only [applyWorkOp, commit_task] at hop
            split at hop
            · exact absurd hop (by simp)
            · split at hop
              · exact absurd hop (by simp)
              · exact (Except.ok.injEq _ _).mp hop ▸ rfl
          | publishOp p sl base now =>
            simp only [applyWorkOp, publish_task] at hop
            split at hop
            · exact absurd hop (by simp)
            · split at hop
              · exact absurd hop (by simp)
              · exact (Except.ok.injEq _ _).mp hop ▸ rfl
        simp [hclear] at hne
      | .error e' =>
        rw [hop] at hne
        exact h hne

theorem applyWorkOp_success (o : WorkOp) (t t' : TaskRec)
    (h : applyWorkOp o t = .ok t') :
    t'.last_error = [] ∧ t'.updated_at = opNow o := by
  cases o with
  | planOp inferred llm now =>
    simp only [applyWorkOp, plan_task] at h
    split at h
    · exact absurd h (by simp)
    · exact (Except.ok.injEq _ _).mp h ▸ ⟨rfl, rfl⟩
  | patchOp inferred raw1 raw2 avail now =>
    simp only [applyWorkOp, patch_task_core] at h
    split at h
    · exact absurd h (by simp)
    · split at h
      · exact absurd h (by simp)
      · split at h
        · exact (Except.ok.injEq _ _).mp h ▸ ⟨rfl, rfl⟩
        · split at h
          · exact (Except.ok.injEq _ _).mp h ▸ ⟨rfl, rfl⟩
          · exact absurd h (by simp)
  | applyOp a b c now =>
    simp only [applyWorkOp, apply_task] at h
    split at h
    · exact absurd h (by simp)
    · split at h
      · exact absurd h (by simp)
      · split at h
        · exact absurd h (by simp)
        · split at h
          · exact absurd h (by simp)
          · exact (Except.ok.injEq _ _).mp h ▸ ⟨rfl, rfl⟩
  | commitOp g s sha now =>
    simp only [applyWorkOp, commit_task] at h
    split at h
    · exact absurd h (by simp)
    · split at h
      · exact absurd h (by simp)
      · exact (Except.ok.injEq _ _).mp h ▸ ⟨rfl, rfl⟩
  | publishOp p sl base now =>
    simp only [applyWorkOp, publish_task] at h
    split at h
    · exact absurd h (by simp)
    · split at h
      · exact absurd h (by simp)
      · exact (Except.ok.injEq _ _).mp h ▸ ⟨rfl, rfl⟩

/-- C10: every successful workflow operation (plan, patch, apply, commit,
publish) stores the task with `last_error` cleared to the empty string and
`updated_at` refreshed to the operation's timestamp; `create_task` stores an
empty `last_error`; and consequently, over any sequence of store events on a
task created with empty `last_error`, a persisted non-empty `last_error`
implies the most recent write was a `fail_task` report. -/
theorem C10_success_clears_last_error :
    (∀ (o : WorkOp) (t t' : TaskRec), applyWorkOp o t = .ok t' →
      t'.last_error = [] ∧ t'.updated_at = opNow o) ∧
    (∀ (infer : Str → List Str) (st : TaskStore) (p : CreateParams),
      ((create_task infer st p).2).last_error = []) ∧
    (∀ (events : List StoreEvent) (t0 : TaskRec), t0.last_error = [] →
      (runTrace events t0).1.last_error ≠ [] →
      (runTrace events t0).2 = some true) := by
  refine ⟨applyWorkOp_success, fun _ _ _ => rfl, ?_⟩
  intro events t0 h0
  simp only [runTrace]
  exact runTrace_invariant events (t0, none) fun hne => (hne h0).elim

/-- C10 witness: a concrete successful `plan_task` stores empty
`last_error` and the fresh timestamp, and after a concrete `fail_task`
event the last writer is the failure report. -/
theorem C10_success_clears_last_error_witness :
    samplePlanned.last_error = [] ∧
    samplePlanned.updated_at = opNow (.planOp [] none "T2".data) ∧
    (runTrace [.failEv "boom".data "T3".data] sampleTask).2 = some true := by
  have h1 := C10_success_clears_last_error.1 (.planOp [] none "T2".data)
    sampleTask samplePlanned rfl
  have h3 := C10_success_clears_last_error.2.2
    [.failEv "boom".data "T3".data] sampleTask rfl (by decide)
  exact ⟨h1.1, h1.2, h3⟩

theorem replaceCRLF_cons_ne (c : Char) (rest : Str) (hc : c ≠ '\r') :
    replaceCRLF (c :: rest) = c :: replaceCRLF rest := by
  rw [replaceCRLF.eq_def]
  split
  · rename_i heq
    exact absurd heq (by simp)
  · rename_i rest2 heq
    injection heq with h1 _
    exact absurd h1 hc
  · rename_i c' rest' _ heq
    injection heq with h1 h2
    rw [h1, h2]

theorem replaceCRLF_id (s : Str) (hr : '\r' ∉ s) : replaceCRLF s = s := by
  induction s with
  | nil => rfl
  | cons c rest ih =>
    have hc : c ≠ '\r' := fun h => hr (h ▸ List.mem_cons_self c rest)
    have hr' : '\r' ∉ rest := fun h => hr (List.mem_cons_of_mem c h)
    rw [replaceCRLF_cons_ne c rest hc, ih hr']

theorem splitlinesGo_step (c : Char) (rest acc : Str) (hc : c ≠ '\r') :
    splitlinesGo (c :: rest) false acc =
      if isLineBoundary c then acc.reverse :: splitlinesGo rest false []
      else splitlinesGo rest false (c :: acc) := by
  by_cases hn : c = '\n'
  · subst hn
    simp [splitlinesGo, isLineBoundary]
  · simp [splitlinesGo, hn, hc]

theorem splitlinesGo_append_newline (u : Str) :
    ∀ acc : Str, '\r' ∉ u →
    splitlinesGo (u ++ ['\n']) false acc =
      splitlinesGo u false acc ++ (if needsExtraLine u acc then [[]] else []) := by
  induction u with
  | nil =>
    intro acc _
    by_cases ha : acc = []
    · subst ha; simp [splitlinesGo, needsExtraLine, isLineBoundary]
    · simp [splitlinesGo, needsExtraLine, ha, List.isEmpty_iff, isLineBoundary]
  | cons c rest ih =>
    intro acc hr
    have hc : c ≠ '\r' := fun h => hr (h ▸ List.mem_cons_self c rest)
    have hr' : '\r' ∉ rest := fun h => hr (List.mem_cons_of_mem c h)
    rw [List.cons_append, splitlinesGo_step c (rest ++ ['\n']) acc hc,
      splitlinesGo_step c rest acc hc]
    by_cases hb : isLineBoundary c = true
    · rw [if_pos hb, if_pos hb, ih [] hr', List.cons_append]
      have hx : needsExtraLine rest [] = needsExtraLine (c :: rest) acc := by
        cases rest with
        | nil => simp [needsExtraLine, hb]
        | cons c2 r2 =>
          rcases hg : (c2 :: r2).getLast? with _ | g
          · exact absurd hg (by simp)
          · simp [needsExtraLine, List.getLast?_cons_cons, hg]
      rw [hx]
    · rw [if_neg hb, if_neg hb, ih (c :: acc) hr']
      have hx : needsExtraLine rest (c :: acc) = needsExtraLine (c :: rest) acc := by
        cases rest with
        | nil => simp [needsExtraLine]; simpa using hb
        | cons c2 r2 =>
          rcases hg : (c2 :: r2).getLast? with _ | g
          · exact absurd hg (by simp)
          · simp [needsExtraLine, List.getLast?_cons_cons, hg]
      rw [hx]

theorem splitlinesGo_lines_no_boundary (s : Str) :
    ∀ (b : Bool) (acc : Str), (∀ c ∈ acc, isLineBoundary c = false) →
    ∀ l ∈ splitlinesGo s b acc, ∀ c ∈ l, isLineBoundary c = false := by
  induction s with
  | nil =>
    intro b acc hacc l hl c hc
    simp only [splitlinesGo] at hl
    split at hl
    · exact absurd hl (List.not_mem_nil l)
    · rw [List.mem_singleton] at hl
      subst hl
      exact hacc c (List.mem_reverse.mp hc)
  | cons c0 rest ih =>
    intro b acc hacc l hl c hc
    simp only [splitlinesGo] at hl
    split at hl
    · split at hl
      · exact ih false acc hacc l hl c hc
      · rcases List.mem_cons.mp hl with h | h
        · subst h
          exact hacc c (List.mem_reverse.mp hc)
        · exact ih false [] (by simp) l h c hc
    · split at hl
      · rcases List.mem_cons.mp hl with h | h
        · subst h
          exact hacc c (List.mem_reverse.mp hc)
        · exact ih true [] (by simp) l h c hc
      · split at hl
        · rcases List.mem_cons.mp hl with h | h
          · subst h
            exact hacc c (List.mem_reverse.mp hc)
          · exact ih false [] (by simp) l h c hc
        · rename_i hnb
          apply ih false (c0 :: acc) ?_ l hl c hc
          intro c' hc'
          rcases List.mem_cons.mp hc' with h | h
          · subst h; simpa using hnb
          · exact hacc c' h

theorem splitlinesGo_lines_chars (s : Str) :
    ∀ (b : Bool) (acc : Str), ∀ l ∈ splitlinesGo s b acc, ∀ c ∈ l,
      c ∈ s ∨ c ∈ acc := by
  induction s with
  | nil =>
    intro b acc l hl c hc
    simp only [splitlinesGo] at hl
    split at hl
    · exact absurd hl (List.not_mem_nil l)
    · rw [List.mem_singleton] at hl
      subst hl
      exact Or.inr (List.mem_reverse.mp hc)
  | cons c0 rest ih =>
    intro b acc l hl c hc
    simp only [splitlinesGo] at hl
    have tail : ∀ (b' : Bool) (acc' : Str), l ∈ splitlinesGo rest b' acc' →
        (∀ c' ∈ acc', c' ∈ (c0 :: rest) ∨ c' ∈ acc) → c ∈ c0 :: rest ∨ c ∈ acc := by
      intro b' acc' hmem hsub
      rcases ih b' acc' l hmem c hc with h | h
      · exact Or.inl (List.mem_cons_of_mem c0 h)
      · exact hsub c h
    split at hl
    · split at hl
      · exact tail false acc hl (fun c' h => Or.inr h)
      · rcases List.mem_cons.mp hl with h | h
        · subst h
          exact Or.inr (List.mem_reverse.mp hc)
        · exact tail false [] h (fun c' h' => absurd h' (List.not_mem_nil c'))
    · split at hl
      · rcases List.mem_cons.mp hl with h | h
        · subst h
          exact Or.inr (List.mem_reverse.mp hc)
        · exact tail true [] h (fun c' h' => absurd h' (List.not_mem_nil c'))
      · split at hl
        · rcases List.mem_cons.mp hl with h | h
          · subst h
            exact Or.inr (List.mem_reverse.mp hc)
          · exact tail false [] h (fun c' h' => absurd h' (List.not_mem_nil c'))
        · apply tail false (c0 :: acc) hl
          intro c' h'
          rcases List.mem_cons.mp h' with h | h
          · exact Or.inl (h ▸ List.mem_cons_self c0 rest)
          · exact Or.inr h

theorem mem_dropWhile_of_not {p : Char → Bool} {c : Char} (hc : p c = false) :
    ∀ {t : Str}, c ∈ t → c ∈ t.dropWhile p := by
  intro t
  induction t with
  | nil => intro h; exact absurd h (List.not_mem_nil c)
  | cons x rest ih =>
    intro h
    by_cases hx : p x = true
    · rw [List.dropWhile_cons_of_pos hx]
      rcases List.mem_cons.mp h with h' | h'
      · subst h'; rw [hc] at hx; exact absurd hx (by simp)
      · exact ih h'
    · rw [List.dropWhile_cons_of_neg hx]
      exact h

theorem mem_stripBy {p : Char → Bool} {c : Char} (hc : p c = false) {t : Str}
    (h : c ∈ t) : c ∈ stripBy p t := by
  rw [stripBy, List.mem_reverse]
  exact mem_dropWhile_of_not hc (List.mem_reverse.mpr (mem_dropWhile_of_not hc h))

theorem filter_getLast?_of_pos {p : Str → Bool} :
    ∀ {l : List Str} {x : Str}, l.getLast? = some x → p x = true →
      (l.filter p).getLast? = some x := by
  intro l
  induction l with
  | nil => intro x h _; exact absurd h (by simp)
  | cons a rest ih =>
    intro x h hp
    cases rest with
    | nil =>
      rw [List.getLast?_singleton] at h
      injection h with h
      subst h
      simp [List.filter, hp]
    | cons b r2 =>
      rw [List.getLast?_cons_cons] at h
      have htail := ih h hp
      by_cases ha : p a = true
      · rw [List.filter_cons_of_pos ha]
        rcases hfl : (b :: r2).filter p with _ | ⟨y, ys⟩
        · rw [hfl] at htail
          exact absurd htail (by simp)
        · rw [hfl] at htail
          rw [List.getLast?_cons_cons]
          exact htail
      · rw [List.filter_cons_of_neg (by simpa using ha)]
        exact htail

theorem splitlinesGo_prefix_line (h : Str) :
    ∀ (t acc : Str), (∀ c ∈ h, isLineBoundary c = false) →
    splitlinesGo (h ++ t) false acc = splitlinesGo t false (h.reverse ++ acc) := by
  induction h with
  | nil => intro t acc _; simp
  | cons c hrest ih =>
    intro t acc hnb
    have hcb : isLineBoundary c = false := hnb c (List.mem_cons_self c hrest)
    have hcr : c ≠ '\r' := by
      intro h'
      rw [h'] at hcb
      exact absurd hcb (by decide)
    rw [List.cons_append, splitlinesGo_step c (hrest ++ t) acc hcr,
      if_neg (by simp [hcb])]
    rw [ih t (c :: acc) (fun c' h' => hnb c' (List.mem_cons_of_mem _ h'))]
    congr 1
    simp

theorem pySplitlines_joinNL (ll : List Str) :
    ll ≠ [] → (∀ l ∈ ll, ∀ c ∈ l, isLineBoundary c = false) →
    pySplitlines (joinNL ll ++ ['\n']) = ll := by
  induction ll with
  | nil => intro h _; exact absurd rfl h
  | cons k krest ih =>
    intro _ hnb
    have hk : ∀ c ∈ k, isLineBoundary c = false := hnb k (List.mem_cons_self k krest)
    cases krest with
    | nil =>
      show pySplitlines (k ++ ['\n']) = [k]
      rw [pySplitlines, splitlinesGo_prefix_line k ['\n'] [] hk]
      rw [splitlinesGo_step '\n' [] _ (by decide), if_pos (by decide)]
      simp [splitlinesGo]
    | cons k2 rest2 =>
      show pySplitlines ((k ++ '\n' :: joinNL (k2 :: rest2)) ++ ['\n']) =
        k :: k2 :: rest2
      rw [show (k ++ '\n' :: joinNL (k2 :: rest2)) ++ ['\n'] =
        k ++ ('\n' :: (joinNL (k2 :: rest2) ++ ['\n'])) by simp]
      rw [pySplitlines, splitlinesGo_prefix_line k _ [] hk]
      rw [splitlinesGo_step '\n' _ _ (by decide), if_pos (by decide)]
      rw [show splitlinesGo (joinNL (k2 :: rest2) ++ ['\n']) false [] =
        pySplitlines (joinNL (k2 :: rest2) ++ ['\n']) from rfl]
      rw [ih (by simp) (fun l hl => hnb l (List.mem_cons_of_mem _ hl))]
      simp

theorem joinNL_getLast? (ll : List Str) :
    ∀ g : Str, ll.getLast? = some g → g ≠ [] →
    (joinNL ll).getLast? = g.getLast? := by
  induction ll with
  | nil => intro g hg _; exact absurd hg (by simp)
  | cons k krest ih =>
    intro g hg hgne
    cases krest with
    | nil =>
      rw [List.getLast?_singleton] at hg
      injection hg with hg
      rw [show joinNL [k] = k from rfl, hg]
    | cons k2 r2 =>
      rw [List.getLast?_cons_cons] at hg
      have htail := ih g hg hgne
      show (k ++ '\n' :: joinNL (k2 :: r2)).getLast? = g.getLast?
      rw [List.getLast?_append_of_ne_nil k (by simp)]
      rw [show ('\n' :: joinNL (k2 :: r2) : Str) = ['\n'] ++ joinNL (k2 :: r2) from rfl]
      have hjne : joinNL (k2 :: r2) ≠ [] := by
        intro hempty
        rw [hempty] at htail
        exact absurd (htail.symm.trans (congrArg List.getLast? rfl)) (by
          simp [List.getLast?_eq_none_iff]
          intro h
          exact hgne (by
            rcases g with _ | _
            · rfl
            · simp at h))
      rw [List.getLast?_append_of_ne_nil ['\n'] hjne]
      exact htail

theorem pySplitlines_stripTrailNL (s : Str) (hr : '\r' ∉ s)
    (hlastline : ∀ g, (pySplitlines s).getLast? = some g → g ≠ []) :
    pySplitlines ((s.reverse.dropWhile fun c => c = '\n').reverse) =
      pySplitlines s := by
  rcases hrev : s.reverse with _ | ⟨c, rtail⟩
  · have hs : s = [] := by simpa using congrArg List.reverse hrev
    subst hs
    rfl
  · by_cases hc : c = '\n'
    · subst hc
      rcases rtail with _ | ⟨c2, r2⟩
      · have hs : s = ['\n'] := by simpa using congrArg List.reverse hrev
        exact absurd rfl (hlastline [] (by rw [hs]; rfl))
      · by_cases hc2 : c2 = '\n'
        · subst hc2
          have hs : s = r2.reverse ++ ['\n', '\n'] := by
            simpa using congrArg List.reverse hrev
          have hr1 : '\r' ∉ r2.reverse ++ ['\n'] := by
            intro hm
            apply hr
            rw [hs]
            rcases List.mem_append.mp hm with h | h
            · exact List.mem_append.mpr (Or.inl h)
            · simp at h
          have hlast0 : (pySplitlines s).getLast? = some [] := by
            rw [hs, show r2.reverse ++ ['\n', '\n'] =
              (r2.reverse ++ ['\n']) ++ ['\n'] by simp]
            rw [pySplitlines, splitlinesGo_append_newline _ [] hr1]
            rw [show needsExtraLine (r2.reverse ++ ['\n']) [] = true by
              simp [needsExtraLine, List.getLast?_concat, isLineBoundary]]
            simp [List.getLast?_concat]
          exact absurd rfl (hlastline [] hlast0)
        · have hs : s = (c2 :: r2).reverse ++ ['\n'] := by
            simpa using congrArg List.reverse hrev
          have hu : '\r' ∉ (c2 :: r2).reverse := by
            intro hm
            apply hr
            rw [hs]
            exact List.mem_append.mpr (Or.inl hm)
          have hglast : ((c2 :: r2).reverse).getLast? = some c2 := by
            rw [List.getLast?_reverse]
            rfl
          by_cases hb2 : isLineBoundary c2 = true
          · have hlast0 : (pySplitlines s).getLast? = some [] := by
              rw [hs, pySplitlines, splitlinesGo_append_newline _ [] hu]
              rw [show needsExtraLine ((c2 :: r2).reverse) [] = true by
                simp [needsExtraLine, hglast, hb2]]
              simp [List.getLast?_concat]
            exact absurd rfl (hlastline [] hlast0)
          · rw [List.dropWhile_cons_of_pos (by simp),
              List.dropWhile_cons_of_neg (by simpa using hc2)]
            rw [hs, pySplitlines, pySplitlines,
              splitlinesGo_append_newline _ [] hu]
            rw [show needsExtraLine ((c2 :: r2).reverse) [] = false by
              simp [needsExtraLine, hglast]
              simpa using hb2]
            simp
    · rw [List.dropWhile_cons_of_neg (by simpa using hc), ← hrev,
        List.reverse_reverse]

theorem sanitize_tail_eq (kept : List Str)
    (hhead : kept.head? ≠ some []) (hlast : kept.getLast? ≠ some [])
    (hbound : ∀ l ∈ kept, ∀ c ∈ l, isLineBoundary c = false) :
    pySplitlines (
      if (stripBy (fun c => c = '\n') (joinNL kept)).isEmpty = true then []
      else stripBy (fun c => c = '\n') (joinNL kept) ++ ['\n']) = kept := by
  rcases kept with _ | ⟨k, krest⟩
  · simp [joinNL, stripBy, pySplitlines, splitlinesGo]
  · have hkne : k ≠ [] := fun h => hhead (by rw [h]; rfl)
    obtain ⟨t, ht⟩ : ∃ t : Str, joinNL (k :: krest) = k ++ t := by
      cases krest with
      | nil => exact ⟨[], by simp [joinNL]⟩
      | cons k2 r2 => exact ⟨'\n' :: joinNL (k2 :: r2), rfl⟩
    rcases hk0 : k with _ | ⟨kc, ktail⟩
    · exact absurd hk0 hkne
    subst hk0
    have hkcb : isLineBoundary kc = false :=
      hbound (kc :: ktail) (List.mem_cons_self _ _) kc (List.mem_cons_self _ _)
    have hkc_nl : kc ≠ '\n' := by
      intro h
      rw [h] at hkcb
      exact absurd hkcb (by decide)
    have hlead : (joinNL ((kc :: ktail) :: krest)).dropWhile
        (fun c => c = '\n') = joinNL ((kc :: ktail) :: krest) := by
      rw [ht, List.cons_append]
      exact List.dropWhile_cons_of_neg (by simpa using hkc_nl)
    obtain ⟨g, hgl⟩ : ∃ g, ((kc :: ktail) :: krest).getLast? = some g := by
      rcases hx : ((kc :: ktail) :: krest).getLast? with _ | g
      · exact absurd hx (by simp)
      · exact ⟨g, rfl⟩
    have hgne : g ≠ [] := fun h => hlast (by rw [hgl, h])
    have hgb : ∀ c ∈ g, isLineBoundary c = false :=
      hbound g (List.mem_of_getLast?_eq_some hgl)
    have hjl : (joinNL ((kc :: ktail) :: krest)).getLast? = g.getLast? :=
      joinNL_getLast? _ g hgl hgne
    obtain ⟨gl, hglc⟩ : ∃ gl, g.getLast? = some gl := by
      rcases hx : g.getLast? with _ | gl
      · exact absurd (List.getLast?_eq_none_iff.mp hx) hgne
      · exact ⟨gl, rfl⟩
    have hglb : isLineBoundary gl = false :=
      hgb gl (List.mem_of_getLast?_eq_some hglc)
    have hgl_nl : gl ≠ '\n' := by
      intro h
      rw [h] at hglb
      exact absurd hglb (by decide)
    have htrail : ((joinNL ((kc :: ktail) :: krest)).reverse.dropWhile
        fun c => c = '\n') = (joinNL ((kc :: ktail) :: krest)).reverse := by
      rcases hrv : (joinNL ((kc :: ktail) :: krest)).reverse with _ | ⟨rc, rr⟩
      · rfl
      · have h1 : rc = gl := by
          have h2 : ((kc :: ktail) :: krest : List Str) ≠ [] := by simp
          have h3 := List.head?_reverse (joinNL ((kc :: ktail) :: krest))
          rw [hrv, hjl, hglc] at h3
          injection h3 with h3
        exact List.dropWhile_cons_of_neg (by simp [h1, hgl_nl])
    have hstrip : stripBy (fun c => c = '\n') (joinNL ((kc :: ktail) :: krest)) =
        joinNL ((kc :: ktail) :: krest) := by
      rw [stripBy, hlead, htrail, List.reverse_reverse]
    rw [hstrip]
    have hjoinne : (joinNL ((kc :: ktail) :: krest)).isEmpty = false := by
      rw [ht, List.cons_append]
      rfl
    rw [hjoinne]
    simp only [Bool.false_eq_true, if_false]
    exact pySplitlines_joinNL _ (by simp) hbound

/-- C9 (amended): for every diff text with no carriage returns, containing a
line that begins with `index `, and whose remaining (non-`index `) first and
last lines are nonempty, sanitization removes exactly the lines beginning
with `index ` and leaves every other line byte-for-byte untouched (the
output is these lines joined with newlines plus one trailing newline).  The
amendment adds the edge conditions: the source strips leading/trailing
newline runs twice and normalizes line endings, which deletes empty edge
lines — see the counterexample. -/
theorem C9_index_stripping_amended (s : Str) (hr : '\r' ∉ s)
    (hidx : (pySplitlines s).any (fun l => "index ".data.isPrefixOf l) = true)
    (hhead : ((pySplitlines s).filter
      fun l => !("index ".data.isPrefixOf l)).head? ≠ some [])
    (hlast : ((pySplitlines s).filter
      fun l => !("index ".data.isPrefixOf l)).getLast? ≠ some []) :
    pySplitlines (sanitize_diff_text s) =
      (pySplitlines s).filter fun l => !("index ".data.isPrefixOf l) := by
  have hP0 : (!("index ".data.isPrefixOf ([] : Str))) = true := by decide
  have hlastline : ∀ g, (pySplitlines s).getLast? = some g → g ≠ [] := by
    intro g hg hge
    subst hge
    exact hlast (filter_getLast?_of_pos hg hP0)
  have hheadline : ∀ r : Str, s ≠ '\n' :: r := by
    intro r hEq
    apply hhead
    rw [hEq]
    rw [show pySplitlines ('\n' :: r) = [] :: pySplitlines r from rfl]
    simp [List.filter_cons]
  have hdrop : s.dropWhile (fun c => c = '\n') = s := by
    cases hs0 : s with
    | nil => rfl
    | cons c0 r0 =>
      have hc0 : c0 ≠ '\n' := by
        intro h
        exact hheadline r0 (by rw [hs0, h])
      exact List.dropWhile_cons_of_neg (by simpa using hc0)
  have htext : stripBy (fun c => c = '\n') s =
      (s.reverse.dropWhile fun c => c = '\n').reverse := by
    rw [stripBy, hdrop]
  have hlines : pySplitlines (stripBy (fun c => c = '\n') s) = pySplitlines s := by
    rw [htext]
    exact pySplitlines_stripTrailNL s hr hlastline
  obtain ⟨l0, hl0m, hl0p⟩ :
      ∃ l, l ∈ pySplitlines s ∧ "index ".data.isPrefixOf l = true := by
    simpa using hidx
  have hil0 : 'i' ∈ l0 := by
    obtain ⟨t0, ht0⟩ := List.isPrefixOf_iff_prefix.mp hl0p
    rw [← ht0]
    exact List.mem_append.mpr (Or.inl (by decide))
  have hichar : 'i' ∈ stripBy (fun c => c = '\n') s := by
    have hl0m' : l0 ∈ splitlinesGo (stripBy (fun c => c = '\n') s) false [] := by
      rw [show splitlinesGo (stripBy (fun c => c = '\n') s) false [] =
        pySplitlines (stripBy (fun c => c = '\n') s) from rfl, hlines]
      exact hl0m
    rcases splitlinesGo_lines_chars _ false [] l0 hl0m' 'i' hil0 with h | h
    · exact h
    · exact absurd h (List.not_mem_nil _)
  have hne : (stripWS (stripBy (fun c => c = '\n') s)).isEmpty = false := by
    have h1 : 'i' ∈ stripWS (stripBy (fun c => c = '\n') s) :=
      mem_stripBy (by decide) hichar
    cases hx : stripWS (stripBy (fun c => c = '\n') s) with
    | nil => rw [hx] at h1; exact absurd h1 (List.not_mem_nil _)
    | cons a b => rfl
  simp only [sanitize_diff_text, replaceCRLF_id s hr, hne, Bool.false_eq_true,
    if_false, hlines]
  exact sanitize_tail_eq _ hhead hlast
    (fun l hl => splitlinesGo_lines_no_boundary s false [] (by simp) l
      (List.mem_of_mem_filter hl))

/-- C9 counterexample: this diff text contains an `index ` line, yet
sanitization does not leave "every other line untouched": the empty line
after the `index ` line is also removed (the strip/join steps delete
edge blank lines), so the output lines are not exactly the non-`index `
input lines. -/
theorem C9_index_stripping_counterexample :
    ((pySplitlines "index 000000..1111111 100644\n\nhello".data).any
      fun l => "index ".data.isPrefixOf l) = true ∧
    pySplitlines
        (sanitize_diff_text "index 000000..1111111 100644\n\nhello".data) ≠
      (pySplitlines "index 000000..1111111 100644\n\nhello".data).filter
        fun l => !("index ".data.isPrefixOf l) := by
  decide

/-- C9 witness: a concrete well-formed diff whose `index ` line is removed
and every other line kept byte-for-byte. -/
theorem C9_index_stripping_witness :
    pySplitlines (sanitize_diff_text
      "diff --git a/x b/x\nindex 000000..1111111 100644\n--- a/x\n+++ b/x\n@@ -1 +1 @@\n-old\n+new".data) =
    (pySplitlines
      "diff --git a/x b/x\nindex 000000..1111111 100644\n--- a/x\n+++ b/x\n@@ -1 +1 @@\n-old\n+new".data).filter
      fun l => !("index ".data.isPrefixOf l) := by
  exact C9_index_stripping_amended _ (by decide) (by decide) (by decide)
    (by decide)
